import Mathlib

/-!
Shallow embedding of src/src/utils/puzzleGenerator.js.

Modelling conventions:
* A JS object used as a map is an insertion-ordered association list
  (JS string-keyed objects iterate keys in insertion order).
* JS numbers that carry table weights and probabilities are rationals.
* Randomness: Math.random is modelled as a stream of rationals indexed by
  call count; a counter threads through the computations that draw.
* JS exceptions (property access on undefined) are Except.error values.
-/

namespace PuzzleGenerator

/-- A frequency table: insertion-ordered association list from letter to weight,
mirroring one of the language objects in the source. -/
abbrev FreqTable := List (String × ℚ)

/-- Math.random output stream: the value of the k-th call. -/
abbrev Rng := Nat → ℚ

/-- The en table of the source constant letterFrequencies, in source key order. -/
def enFreq : FreqTable :=
  [("A", 8.2), ("B", 1.5), ("C", 2.8), ("D", 4.3), ("E", 12.7), ("F", 2.2),
   ("G", 2.0), ("H", 6.1), ("I", 7.0), ("J", 0.2), ("K", 0.8), ("L", 4.0),
   ("M", 2.4), ("N", 6.7), ("O", 7.5), ("P", 1.9), ("Q", 0.1), ("R", 6.0),
   ("S", 6.3), ("T", 9.1), ("U", 2.8), ("V", 1.0), ("W", 2.4), ("X", 0.2),
   ("Y", 2.0), ("Z", 0.1)]

/-- The es table of the source constant letterFrequencies, in source key order. -/
def esFreq : FreqTable :=
  [("A", 11.5), ("B", 2.2), ("C", 4.0), ("D", 5.0), ("E", 12.2), ("F", 0.7),
   ("G", 1.0), ("H", 0.7), ("I", 6.2), ("J", 0.5), ("K", 0.1), ("L", 5.0),
   ("M", 3.2), ("N", 7.0), ("O", 8.7), ("P", 2.5), ("Q", 0.9), ("R", 6.5),
   ("S", 7.3), ("T", 4.6), ("U", 3.9), ("V", 1.0), ("W", 0.1), ("X", 0.2),
   ("Y", 1.0), ("Z", 0.5), ("Ñ", 0.2)]

/-- The fr table of the source constant letterFrequencies, in source key order. -/
def frFreq : FreqTable :=
  [("A", 7.6), ("B", 0.9), ("C", 3.0), ("D", 3.7), ("E", 14.7), ("F", 1.0),
   ("G", 0.9), ("H", 0.7), ("I", 7.5), ("J", 0.6), ("K", 0.1), ("L", 5.5),
   ("M", 2.9), ("N", 7.1), ("O", 5.3), ("P", 3.0), ("Q", 1.4), ("R", 6.5),
   ("S", 7.9), ("T", 7.2), ("U", 6.3), ("V", 1.8), ("W", 0.1), ("X", 0.4),
   ("Y", 0.3), ("Z", 0.1), ("É", 1.9), ("È", 0.3), ("Ê", 0.2), ("Ç", 0.1)]

/-- The source constant letterFrequencies: language code to frequency table,
in source key order (en, es, fr). -/
def letterFrequencies : List (String × FreqTable) :=
  [("en", enFreq), ("es", esFreq), ("fr", frFreq)]

/-- The source constant vowels: language code to ordered vowel list. -/
def vowels : List (String × List String) :=
  [("en", ["A", "E", "I", "O", "U", "Y"]),
   ("es", ["A", "E", "I", "O", "U"]),
   ("fr", ["A", "E", "I", "O", "U", "Y", "É", "È", "Ê"])]

/-- JS array indexing arr[i] for an integer index: undefined (none) outside
the bounds. -/
def jsIndex {α : Type} (l : List α) (i : ℤ) : Option α :=
  if i < 0 then none else l.get? i.toNat

/-- The cumulative-walk loop shared by both branches of getRandomLetter:
walk the entries in order accumulating weight starting from cum, and return
the first entry whose cumulative weight is greater than or equal to the draw
(the source comparison is random less than or equal to cumulativeProb);
none when the walk exhausts the list. -/
def walk : FreqTable → ℚ → ℚ → Option String
  | [], _, _ => none
  | (l, w) :: rest, r, cum =>
    if r ≤ cum + w then some l else walk rest r (cum + w)

/-- The table resolution freq = letterFrequencies[language] || letterFrequencies.en
of the source. A JS for..in loop over undefined iterates nothing, so when both
lookups fail (never the case for the real constant) the missing object behaves
as the empty table, hence getD []. -/
def resolveFreq (freqTabs : List (String × FreqTable)) (language : String) :
    FreqTable :=
  ((List.lookup language freqTabs).orElse fun _ => List.lookup "en" freqTabs).getD []

/-- The vowel-list resolution langVowels = vowels[language] || vowels.en. -/
def resolveVowels (vowelTabs : List (String × List String)) (language : String) :
    List String :=
  ((List.lookup language vowelTabs).orElse fun _ => List.lookup "en" vowelTabs).getD []

/-- The vowelFreq object built by getRandomLetter: for each vowel of langVowels
in order, keep it with its weight when freq[vowel] is truthy (present with a
nonzero weight). -/
def vowelFreqList (freq : FreqTable) (langVowels : List String) : FreqTable :=
  langVowels.filterMap fun v =>
    (List.lookup v freq).bind fun w => if w = 0 then none else some (v, w)

/-- getRandomLetter(language, ensureVowel) from the source, parameterized over
the module tables; r is the single Math.random() value drawn during the call.
The source builds vowelFreq as a fresh object literal and divides its entries
in place, so the normalization is a pure local map here and the tables are
untouched. The fallback langVowels[0] on an empty vowel list is the JS value
undefined, rendered as the string "undefined"; it is unreachable for the real
tables. -/
def getRandomLetterT (freqTabs : List (String × FreqTable))
    (vowelTabs : List (String × List String))
    (language : String) (ensureVowel : Bool) (r : ℚ) : String :=
  let freq := resolveFreq freqTabs language
  if ensureVowel then
    let langVowels := resolveVowels vowelTabs language
    let vowelFreq := vowelFreqList freq langVowels
    let totalFreq := (vowelFreq.map Prod.snd).sum
    let normalized := vowelFreq.map fun p => (p.1, p.2 / totalFreq)
    match walk normalized r 0 with
    | some l => l
    | none => langVowels.getD 0 "undefined"
  else
    let totalFreq := (freq.map Prod.snd).sum
    match walk freq (r * totalFreq) 0 with
    | some l => l
    | none => "E"

/-- getRandomLetter with the module constants in place, source defaults
language = en and ensureVowel = false made explicit. -/
def getRandomLetter (language : String) (ensureVowel : Bool) (r : ℚ) : String :=
  getRandomLetterT letterFrequencies vowels language ensureVowel r

/-- The Array.filter computing specialLetters in generateBoard:
keep char when char.length > 1 || !letterFrequencies[language][char].
mainTab is letterFrequencies[language]; when it is undefined (none), reading
a property of it throws a TypeError, which the short-circuit reaches at the
first key whose length is not greater than 1. JS truthiness makes a weight
of 0 count as absent. -/
def filterSpecial (mainTab : Option FreqTable) :
    List String → Except String (List String)
  | [] => .ok []
  | c :: cs =>
    if c.length > 1 then (filterSpecial mainTab cs).map (c :: ·)
    else
      match mainTab with
      | none => .error "TypeError: cannot read properties of undefined"
      | some t =>
        match List.lookup c t with
        | none => (filterSpecial mainTab cs).map (c :: ·)
        | some w =>
          if w = 0 then (filterSpecial mainTab cs).map (c :: ·)
          else filterSpecial mainTab cs

/-- The body of the inner loop of generateBoard for one cell. g is the
Math.random stream and n the number of draws consumed so far; returns the cell
letter and the new draw count. Draw order follows the source: vowel check,
letter draw inside getRandomLetter, special check, then (when taken) the
other-language index and the special-letter index. An out-of-range read of
specialLetters would store the JS value undefined in the cell; that read is
impossible for draws in the interval from 0 inclusive to 1 exclusive, and is
conflated here into an error value. -/
def genCell (freqTabs : List (String × FreqTable))
    (vowelTabs : List (String × List String)) (language : String)
    (vp sp : ℚ) (g : Rng) (n : Nat) : Except String (String × Nat) :=
  let forceVowel := g n < vp
  let letter := getRandomLetterT freqTabs vowelTabs language forceVowel (g (n + 1))
  if g (n + 2) < sp then
    let languages := (freqTabs.map Prod.fst).filter (· ≠ language)
    if 0 < languages.length then
      match jsIndex languages ⌊g (n + 3) * languages.length⌋ with
      | none => .error "TypeError: Object.keys of undefined"
      | some otherLang =>
        let otherKeys := ((List.lookup otherLang freqTabs).getD []).map Prod.fst
        match filterSpecial (List.lookup language freqTabs) otherKeys with
        | .error e => .error e
        | .ok specialLetters =>
          if 0 < specialLetters.length then
            match jsIndex specialLetters ⌊g (n + 4) * specialLetters.length⌋ with
            | some l => .ok (l, n + 5)
            | none => .error "undefined stored in cell"
          else .ok (letter, n + 4)
    else .ok (letter, n + 3)
  else .ok (letter, n + 3)

/-- The inner for-loop of generateBoard: build one row of cols cells, pushed
left to right. -/
def genCells (freqTabs : List (String × FreqTable))
    (vowelTabs : List (String × List String)) (language : String)
    (vp sp : ℚ) (g : Rng) : Nat → Nat → Except String (List String × Nat)
  | 0, n => .ok ([], n)
  | cols + 1, n =>
    match genCell freqTabs vowelTabs language vp sp g n with
    | .error e => .error e
    | .ok (c, n1) =>
      match genCells freqTabs vowelTabs language vp sp g cols n1 with
      | .error e => .error e
      | .ok (rest, n2) => .ok (c :: rest, n2)

/-- The outer for-loop of generateBoard: build the rows top to bottom, each of
cols cells. -/
def genRows (freqTabs : List (String × FreqTable))
    (vowelTabs : List (String × List String)) (language : String)
    (vp sp : ℚ) (cols : Nat) (g : Rng) :
    Nat → Nat → Except String (List (List String) × Nat)
  | 0, n => .ok ([], n)
  | rows + 1, n =>
    match genCells freqTabs vowelTabs language vp sp g cols n with
    | .error e => .error e
    | .ok (row, n1) =>
      match genRows freqTabs vowelTabs language vp sp cols g rows n1 with
      | .error e => .error e
      | .ok (rest, n2) => .ok (row :: rest, n2)

/-- generateBoard(rows, cols, options) parameterized over the module tables.
rows and cols are JS integers; the source loops for (let i = 0; i < rows; i++)
run max rows 0 iterations, hence Int.toNat. Returns the board together with the
total number of Math.random draws consumed. -/
def generateBoardT (freqTabs : List (String × FreqTable))
    (vowelTabs : List (String × List String)) (rows cols : ℤ)
    (language : String) (vp sp : ℚ) (g : Rng) (n : Nat) :
    Except String (List (List String) × Nat) :=
  genRows freqTabs vowelTabs language vp sp cols.toNat g rows.toNat n

/-- generateBoard with the module constants in place. The source option
defaults are language en, vowelProbability 0.35, specialLetterProbability
0.15; callers of this embedding pass them explicitly. -/
def generateBoard (rows cols : ℤ) (language : String) (vp sp : ℚ)
    (g : Rng) (n : Nat) : Except String (List (List String) × Nat) :=
  generateBoardT letterFrequencies vowels rows cols language vp sp g n

/-- The seed computed by generateDailyPuzzle:
today.getFullYear() * 10000 + (today.getMonth() + 1) * 100 + today.getDate(),
with month already shifted to the 1 to 12 range. -/
def dailySeed (year month day : ℤ) : ℤ :=
  year * 10000 + month * 100 + day

/-- The mutable module-level and global state the source can touch: the two
table constants and the Math.seedrandom property written by
generateDailyPuzzle (absent, i.e. none, before the first write). -/
structure ModuleState where
  letterFrequencies : List (String × FreqTable)
  vowels : List (String × List String)
  mathSeedrandom : Option ℤ

/-- The state of the module as loaded. -/
def initState : ModuleState :=
  { letterFrequencies := letterFrequencies, vowels := vowels,
    mathSeedrandom := none }

/-- generateDailyPuzzle() as a state transformer: the date is the current
date read from the clock, g the ambient Math.random stream. The source assigns
the date seed to Math.seedrandom, a property that Math.random never consults,
and then calls generateBoard(6, 6, with language en, vowelProbability 0.4,
specialLetterProbability 0.2) against the unseeded ambient stream. -/
def generateDailyPuzzleS (st : ModuleState) (year month day : ℤ) (g : Rng) :
    Except String (List (List String) × Nat) × ModuleState :=
  (generateBoardT st.letterFrequencies st.vowels 6 6 "en" 0.4 0.2 g 0,
   { st with mathSeedrandom := some (dailySeed year month day) })

/-- generateDailyPuzzle() run from the loaded module state, returning the
board result only. -/
def generateDailyPuzzle (year month day : ℤ) (g : Rng) :
    Except String (List (List String) × Nat) :=
  (generateDailyPuzzleS initState year month day g).1

/-- The commonScoring table local to getLetterPoints, in source key order. -/
def commonScoring : List (String × ℤ) :=
  [("A", 1), ("B", 3), ("C", 3), ("D", 2), ("E", 1), ("F", 4), ("G", 2),
   ("H", 4), ("I", 1), ("J", 8), ("K", 5), ("L", 1), ("M", 3), ("N", 1),
   ("O", 1), ("P", 3), ("Q", 10), ("R", 1), ("S", 1), ("T", 1), ("U", 1),
   ("V", 4), ("W", 4), ("X", 8), ("Y", 4), ("Z", 10)]

/-- getLetterPoints(letter, language) from the source. The guard
letter.length > 1 || !commonScoring[letter] treats an absent key and a zero
weight alike (JS falsiness), modelled by defaulting the lookup to 0. The final
commonScoring[letter] || 2 likewise yields 2 exactly when the value is falsy.
The language parameter is accepted and ignored, as in the source. JS measures
length in UTF-16 code units and Lean in scalar values; every key of the table
is a single basic-plane character, so the two agree on all inputs that reach
the table branch. -/
def getLetterPoints (letter : String) (language : String) : ℤ :=
  let v := (List.lookup letter commonScoring).getD 0
  if 1 < letter.length ∨ v = 0 then 8
  else if v = 0 then 2 else v

/-- getLetterPoints as a state transformer: the source assigns only to the
function-local commonScoring object, so the module state passes through. -/
def getLetterPointsS (st : ModuleState) (letter : String) (language : String) :
    ℤ × ModuleState :=
  (getLetterPoints letter language, st)

/-- getRandomLetter as a state transformer over the module tables: the source
writes only to function locals (vowelFreq is a fresh object literal, so the
in-place division of its entries touches the copy, never the shared table),
hence the state passes through unchanged. -/
def getRandomLetterS (st : ModuleState) (language : String)
    (ensureVowel : Bool) (r : ℚ) : String × ModuleState :=
  (getRandomLetterT st.letterFrequencies st.vowels language ensureVowel r, st)

/-- generateBoard as a state transformer: the source writes only to the local
board and row arrays, so the module state passes through unchanged. -/
def generateBoardS (st : ModuleState) (rows cols : ℤ) (language : String)
    (vp sp : ℚ) (g : Rng) (n : Nat) :
    Except String (List (List String) × Nat) × ModuleState :=
  (generateBoardT st.letterFrequencies st.vowels rows cols language vp sp g n, st)

/-!
Spec-side definitions, written from the words of section 4.1 of the spec, for
comparison with the source embedding getRandomLetterT: roulette-wheel
selection returns the first entry, in table order, whose cumulative weight
meets or exceeds the draw.
-/

/-- The cumulative weight of the first k entries of a table. -/
def cumWeight (t : FreqTable) (k : Nat) : ℚ :=
  ((t.take k).map Prod.snd).sum

/-- First entry, in table order, whose cumulative weight meets or exceeds the
draw d; none when the walk exhausts all entries. -/
def specSelect (t : FreqTable) (d : ℚ) : Option String :=
  ((List.range t.length).find? fun k => d ≤ cumWeight t (k + 1)).bind
    fun k => (t.get? k).map Prod.fst

/-- Spec section 4.1, general case: sum all weights, draw d uniform in the
interval from 0 to the sum, and select by cumulative walk with the literal E
as deterministic fallback. -/
def rouletteGeneral (t : FreqTable) (d : ℚ) : String :=
  (specSelect t d).getD "E"

/-- Spec section 4.1, vowel-only restriction, in the words of the spec: the
subset of the table's vowel set that has a nonzero weight, each vowel paired
with its table weight. -/
def specVowelSubset (t : FreqTable) (vws : List String) : FreqTable :=
  (vws.filter fun v => (List.lookup v t).getD 0 ≠ 0).map
    fun v => (v, (List.lookup v t).getD 0)

/-- Spec section 4.1, vowel-only case: restrict to the subset of the vowel set
with a nonzero weight, renormalize the subset weights to sum to 1, apply the
same cumulative-walk selection to the renormalized subset, with the vowel
set's first vowel as deterministic fallback (undefined when the vowel set is
empty, as in the source). -/
def rouletteVowel (t : FreqTable) (vws : List String) (d : ℚ) : String :=
  let sub := specVowelSubset t vws
  let norm := sub.map fun p => (p.1, p.2 / (sub.map Prod.snd).sum)
  (specSelect norm d).getD (vws.getD 0 "undefined")

end PuzzleGenerator

deriving instance DecidableEq for Except

namespace PuzzleGenerator

theorem cumWeight_cons (l : String) (w : ℚ) (rest : FreqTable) (k : Nat) :
    cumWeight ((l, w) :: rest) (k + 1) = w + cumWeight rest k := by
  simp [cumWeight]

theorem cumWeight_one (l : String) (w : ℚ) (rest : FreqTable) :
    cumWeight ((l, w) :: rest) 1 = w := by
  simp [cumWeight]

/-- The accumulator-passing walk of the source equals the spec's search for
the first index whose cumulative weight meets or exceeds the draw. -/
theorem walk_eq_find (t : FreqTable) (r : ℚ) : ∀ c : ℚ,
    walk t r c =
      ((List.range t.length).find? fun k => r ≤ c + cumWeight t (k + 1)).bind
        fun k => (t.get? k).map Prod.fst := by
  induction t with
  | nil => intro c; simp [walk]
  | cons p rest ih =>
    intro c
    obtain ⟨l, w⟩ := p
    rw [walk]
    rw [List.length_cons, List.range_succ_eq_map, List.find?_cons]
    have h0 : (decide (r ≤ c + cumWeight ((l, w) :: rest) (0 + 1))) =
        decide (r ≤ c + w) := by
      rw [decide_eq_decide, cumWeight_one]
    rw [h0]
    by_cases h : r ≤ c + w
    · rw [if_pos h, decide_eq_true h]
      rfl
    · rw [if_neg h, decide_eq_false h]
      show walk rest r (c + w) = _
      rw [List.find?_map]
      have hfun : ((fun k => decide (r ≤ c + cumWeight ((l, w) :: rest) (k + 1)))
          ∘ Nat.succ) =
          fun k => decide (r ≤ (c + w) + cumWeight rest (k + 1)) := by
        funext k
        show decide (r ≤ c + cumWeight ((l, w) :: rest) (k + 1 + 1)) = _
        rw [decide_eq_decide, cumWeight_cons, ← add_assoc]
      rw [hfun, ih (c + w)]
      cases (List.range rest.length).find? fun k =>
          decide (r ≤ (c + w) + cumWeight rest (k + 1)) with
      | none => rfl
      | some k => rfl

/-- The walk started at accumulator 0 is exactly the spec-side selection. -/
theorem walk_eq_specSelect (t : FreqTable) (r : ℚ) :
    walk t r 0 = specSelect t r := by
  rw [walk_eq_find t r 0]
  unfold specSelect
  have hfun : (fun k => decide (r ≤ 0 + cumWeight t (k + 1))) =
      fun k => decide (r ≤ cumWeight t (k + 1)) := by
    funext k
    rw [decide_eq_decide, zero_add]
  rw [hfun]

/-- The spec-side vowel restriction coincides with the vowelFreq object the
source builds. -/
theorem specVowelSubset_eq_vowelFreqList (t : FreqTable) (vws : List String) :
    specVowelSubset t vws = vowelFreqList t vws := by
  induction vws with
  | nil => rfl
  | cons v rest ih =>
    unfold specVowelSubset vowelFreqList at ih ⊢
    simp only [ne_eq, decide_not] at ih
    cases hl : List.lookup v t with
    | none => simp [List.filter_cons, hl, ih]
    | some w =>
      by_cases hw : w = 0
      · simp [List.filter_cons, hl, hw, ih]
      · simp [List.filter_cons, hl, hw, ih]

theorem getRandomLetterT_false_eq (ft : List (String × FreqTable))
    (vt : List (String × List String)) (lang : String) (r : ℚ) :
    getRandomLetterT ft vt lang false r =
      rouletteGeneral (resolveFreq ft lang)
        (r * ((resolveFreq ft lang).map Prod.snd).sum) := by
  simp only [getRandomLetterT, rouletteGeneral, Bool.false_eq_true, if_false]
  rw [← walk_eq_specSelect]
  cases walk (resolveFreq ft lang) (r * ((resolveFreq ft lang).map Prod.snd).sum) 0 with
  | none => rfl
  | some l => rfl

theorem getRandomLetterT_true_eq (ft : List (String × FreqTable))
    (vt : List (String × List String)) (lang : String) (r : ℚ) :
    getRandomLetterT ft vt lang true r =
      rouletteVowel (resolveFreq ft lang) (resolveVowels vt lang) r := by
  simp only [getRandomLetterT, rouletteVowel, if_true]
  rw [specVowelSubset_eq_vowelFreqList, ← walk_eq_specSelect]
  cases walk ((vowelFreqList (resolveFreq ft lang) (resolveVowels vt lang)).map
      fun p => (p.1, p.2 / ((vowelFreqList (resolveFreq ft lang)
        (resolveVowels vt lang)).map Prod.snd).sum)) r 0 with
  | none => rfl
  | some l => rfl

/-- Claim C4: getRandomLetter implements roulette-wheel selection. In the
general case it equals the spec selection over the resolved table at draw
r times the total weight, with literal E fallback; in the vowel-only case it
equals the spec selection over the renormalized nonzero-weight vowel subset at
draw r, with the vowel set's first vowel as fallback. Stated for arbitrary
table sets, hence in particular for the module constants. -/
theorem getRandomLetter_roulette_selection :
    (∀ (ft : List (String × FreqTable)) (vt : List (String × List String))
        (lang : String) (r : ℚ),
      getRandomLetterT ft vt lang false r =
        rouletteGeneral (resolveFreq ft lang)
          (r * ((resolveFreq ft lang).map Prod.snd).sum))
    ∧ ∀ (ft : List (String × FreqTable)) (vt : List (String × List String))
        (lang : String) (r : ℚ),
      getRandomLetterT ft vt lang true r =
        rouletteVowel (resolveFreq ft lang) (resolveVowels vt lang) r :=
  ⟨getRandomLetterT_false_eq, getRandomLetterT_true_eq⟩

/-- Claim C1, refuted (code bug): the board generateDailyPuzzle returns does
not depend on the date at all, so the date-derived seed does not determine the
board. First conjunct: any two dates give the same board for the same ambient
Math.random stream. Second conjunct: on one calendar date, two calls whose
ambient streams differ return different boards (the first draws 0 everywhere
and yields an all-Ñ board, the second draws 9/10 everywhere and yields an
all-T board). Third conjunct: the seed is computed and written, but only to
the Math.seedrandom property, which the sampling never consults. -/
theorem generateDailyPuzzle_not_date_determined :
    (∀ (y1 m1 d1 y2 m2 d2 : ℤ) (g : Rng),
      generateDailyPuzzle y1 m1 d1 g = generateDailyPuzzle y2 m2 d2 g)
    ∧ generateDailyPuzzle 2026 10 11 (fun _ => 0) ≠
        generateDailyPuzzle 2026 10 11 (fun _ => 9 / 10)
    ∧ ∀ (st : ModuleState) (y m d : ℤ) (g : Rng),
        (generateDailyPuzzleS st y m d g).2.mathSeedrandom =
          some (dailySeed y m d) :=
  ⟨fun _ _ _ _ _ _ _ => rfl, by set_option maxRecDepth 100000 in with_unfolding_all decide,
   fun _ _ _ _ _ => rfl⟩

/-- Claim C2, refuted (code bug): for the unknown language code de,
generateBoard throws a TypeError once the special-letter branch runs, because
the filter on line 132 of the source reads letterFrequencies[language][char]
without the English fallback; getRandomLetter itself (second conjunct) does
fall back to the English tables for de, which shows the intended design. -/
theorem generateBoard_unknown_language_throws :
    generateBoard 1 1 "de" 0.35 0.15 (fun _ => 0) 0 =
      .error "TypeError: cannot read properties of undefined"
    ∧ ∀ (ev : Bool) (r : ℚ), getRandomLetter "de" ev r = getRandomLetter "en" ev r :=
  ⟨by with_unfolding_all decide, fun _ _ => rfl⟩

/-- Claim C8: scoring is language-invariant; the language parameter never
reaches the computation. -/
theorem getLetterPoints_language_invariant :
    ∀ letter l1 l2 : String, getLetterPoints letter l1 = getLetterPoints letter l2 :=
  fun _ _ _ => rfl

/-- Claim C9: no public operation mutates the static tables: each of the four
operations, run as a state transformer over the module state, returns the
letterFrequencies and vowels tables unchanged (generateDailyPuzzle writes only
the Math.seedrandom property). The source vowel-path renormalization divides
entries of the fresh vowelFreq object, embedded as a local copy in
getRandomLetterT. -/
theorem tables_never_mutated :
    (∀ (st : ModuleState) (lang : String) (ev : Bool) (r : ℚ),
      (getRandomLetterS st lang ev r).2.letterFrequencies = st.letterFrequencies ∧
      (getRandomLetterS st lang ev r).2.vowels = st.vowels)
    ∧ (∀ (st : ModuleState) (rows cols : ℤ) (lang : String) (vp sp : ℚ)
        (g : Rng) (n : Nat),
      (generateBoardS st rows cols lang vp sp g n).2.letterFrequencies =
        st.letterFrequencies ∧
      (generateBoardS st rows cols lang vp sp g n).2.vowels = st.vowels)
    ∧ (∀ (st : ModuleState) (y m d : ℤ) (g : Rng),
      (generateDailyPuzzleS st y m d g).2.letterFrequencies =
        st.letterFrequencies ∧
      (generateDailyPuzzleS st y m d g).2.vowels = st.vowels)
    ∧ ∀ (st : ModuleState) (letter lang : String),
      (getLetterPointsS st letter lang).2.letterFrequencies =
        st.letterFrequencies ∧
      (getLetterPointsS st letter lang).2.vowels = st.vowels :=
  ⟨fun _ _ _ _ => ⟨rfl, rfl⟩, fun _ _ _ _ _ _ _ _ => ⟨rfl, rfl⟩,
   fun _ _ _ _ _ => ⟨rfl, rfl⟩, fun _ _ _ => ⟨rfl, rfl⟩⟩

theorem lookup_mem {α : Type} {k : String} {v : α} :
    ∀ {l : List (String × α)}, List.lookup k l = some v → (k, v) ∈ l := by
  intro l
  induction l with
  | nil => intro h; exact absurd h (by simp [List.lookup])
  | cons p rest ih =>
    obtain ⟨k1, v1⟩ := p
    intro h
    rw [List.lookup] at h
    cases hke : (k == k1) with
    | false =>
      simp only [hke] at h
      exact List.mem_cons_of_mem _ (ih h)
    | true =>
      simp only [hke] at h
      obtain rfl : k = k1 := eq_of_beq hke
      obtain rfl : v1 = v := Option.some.inj h
      exact List.mem_cons_self _ _

theorem commonScoring_pos : ∀ p ∈ commonScoring, 0 < p.2 := by decide

/-- Claim C7: getLetterPoints returns 8 for a multi-character glyph or a
letter absent from the scoring table, otherwise the table value; the listed
concrete values hold; and every returned value is positive. -/
theorem getLetterPoints_spec :
    (∀ letter lang : String,
      1 < letter.length ∨ List.lookup letter commonScoring = none →
      getLetterPoints letter lang = 8)
    ∧ (∀ (letter lang : String) (v : ℤ), letter.length ≤ 1 →
      List.lookup letter commonScoring = some v → getLetterPoints letter lang = v)
    ∧ getLetterPoints "Q" "en" = 10
    ∧ getLetterPoints "Ñ" "es" = 8
    ∧ getLetterPoints "@" "en" = 8
    ∧ ∀ letter lang : String, 0 < getLetterPoints letter lang := by
  refine ⟨?_, ?_, by decide, by decide, by decide, ?_⟩
  · intro letter lang h
    rcases h with h | h
    · simp [getLetterPoints, h]
    · simp [getLetterPoints, h]
  · intro letter lang v h1 h2
    have hv : 0 < v := commonScoring_pos _ (lookup_mem h2)
    simp [getLetterPoints, h2, Nat.not_lt.mpr h1, hv.ne.symm]
  · intro letter lang
    unfold getLetterPoints
    cases hl : List.lookup letter commonScoring with
    | none => simp
    | some w =>
      by_cases hc : 1 < letter.length ∨ (Option.some w).getD 0 = 0
      · rw [if_pos hc]; decide
      · rw [if_neg hc]
        push_neg at hc
        rw [if_neg hc.2]
        simpa using commonScoring_pos _ (lookup_mem hl)

theorem genRows_zero_cols (ft : List (String × FreqTable))
    (vt : List (String × List String)) (lang : String) (vp sp : ℚ) (g : Rng) :
    ∀ (m n : Nat), genRows ft vt lang vp sp 0 g m n =
      .ok (List.replicate m [], n) := by
  intro m
  induction m with
  | zero => intro n; rfl
  | succ m ih =>
    intro n
    rw [genRows]
    simp only [genCells, ih]
    rfl

/-- Claim C10: out-of-contract dimensions degrade to empty structures: a
nonpositive row count returns the empty board, and a positive row count with
a nonpositive column count returns that many empty rows, in both cases
consuming no randomness and never failing. -/
theorem generateBoard_degenerate_dims :
    ∀ (ft : List (String × FreqTable)) (vt : List (String × List String))
      (rows cols : ℤ) (lang : String) (vp sp : ℚ) (g : Rng) (n : Nat),
    (rows ≤ 0 → generateBoardT ft vt rows cols lang vp sp g n = .ok ([], n))
    ∧ (0 < rows → cols ≤ 0 →
        generateBoardT ft vt rows cols lang vp sp g n =
          .ok (List.replicate rows.toNat [], n)) := by
  intro ft vt rows cols lang vp sp g n
  constructor
  · intro h
    unfold generateBoardT
    rw [Int.toNat_of_nonpos h]
    rfl
  · intro _ hc
    unfold generateBoardT
    rw [Int.toNat_of_nonpos hc, genRows_zero_cols]

/-- Witness for claim C10 at rows -1 and at rows 3 with cols -2. -/
theorem generateBoard_degenerate_dims_witness :
    generateBoardT letterFrequencies vowels (-1) 5 "en" 0.35 0.15
      (fun _ => 0) 0 = .ok ([], 0)
    ∧ generateBoardT letterFrequencies vowels 3 (-2) "en" 0.35 0.15
      (fun _ => 0) 0 = .ok (List.replicate (3 : ℤ).toNat [], 0) :=
  ⟨(generateBoard_degenerate_dims letterFrequencies vowels (-1) 5 "en" 0.35 0.15
      (fun _ => 0) 0).1 (by decide),
   (generateBoard_degenerate_dims letterFrequencies vowels 3 (-2) "en" 0.35 0.15
      (fun _ => 0) 0).2 (by decide) (by decide)⟩

end PuzzleGenerator
namespace PuzzleGenerator

theorem walk_mem : ∀ (t : FreqTable) (r c : ℚ) (l : String),
    walk t r c = some l → l ∈ t.map Prod.fst := by
  intro t
  induction t with
  | nil => intro r c l h; exact absurd h (by simp [walk])
  | cons p rest ih =>
    obtain ⟨a, w⟩ := p
    intro r c l h
    rw [walk] at h
    by_cases hc : r ≤ c + w
    · rw [if_pos hc] at h
      obtain rfl := Option.some.inj h
      simp
    · rw [if_neg hc] at h
      simpa using Or.inr (ih r (c + w) l h)

theorem vowelFreqList_fst_sub (t : FreqTable) (vws : List String) (x : String)
    (hx : x ∈ (vowelFreqList t vws).map Prod.fst) : x ∈ vws := by
  rcases List.mem_map.mp hx with ⟨p, hp, rfl⟩
  rcases List.mem_filterMap.mp hp with ⟨a, ha, hfa⟩
  cases hl : List.lookup a t with
  | none => rw [hl] at hfa; exact absurd hfa (by simp)
  | some w =>
    rw [hl] at hfa
    by_cases hw : w = 0
    · rw [Option.some_bind, if_pos hw] at hfa
      exact absurd hfa (by simp)
    · rw [Option.some_bind, if_neg hw] at hfa
      obtain rfl := Option.some.inj hfa
      exact ha

/-- The result of the vowel path of getRandomLetter is the fallback head of
the vowel list or a member of the vowel list. -/
theorem getRandomLetterT_true_mem (ft : List (String × FreqTable))
    (vt : List (String × List String)) (lang : String) (r : ℚ) :
    getRandomLetterT ft vt lang true r = (resolveVowels vt lang).getD 0 "undefined"
    ∨ getRandomLetterT ft vt lang true r ∈ resolveVowels vt lang := by
  unfold getRandomLetterT
  simp only [if_true]
  cases hw : walk ((vowelFreqList (resolveFreq ft lang) (resolveVowels vt lang)).map
      fun p => (p.1, p.2 / ((vowelFreqList (resolveFreq ft lang)
        (resolveVowels vt lang)).map Prod.snd).sum)) r 0 with
  | none => exact Or.inl rfl
  | some l =>
    refine Or.inr ?_
    have hmem := walk_mem _ _ _ _ hw
    rw [List.map_map] at hmem
    have : (Prod.fst ∘ fun p : String × ℚ =>
        (p.1, p.2 / ((vowelFreqList (resolveFreq ft lang)
          (resolveVowels vt lang)).map Prod.snd).sum)) = Prod.fst := by
      funext p; rfl
    rw [this] at hmem
    exact vowelFreqList_fst_sub _ _ _ hmem

end PuzzleGenerator
namespace PuzzleGenerator

/-- Lift a per-cell guarantee through the inner loop: if every cell generation
succeeds with a letter satisfying P, a row of the requested width is produced
whose letters all satisfy P. -/
theorem genCells_ok_of_cell (P : String → Prop)
    (ft : List (String × FreqTable)) (vt : List (String × List String))
    (lang : String) (vp sp : ℚ) (g : Rng)
    (hcell : ∀ n, ∃ s k, genCell ft vt lang vp sp g n = .ok (s, k) ∧ P s) :
    ∀ c n, ∃ row k, genCells ft vt lang vp sp g c n = .ok (row, k)
      ∧ row.length = c ∧ ∀ s ∈ row, P s := by
  intro c
  induction c with
  | zero => intro n; exact ⟨[], n, rfl, rfl, by simp⟩
  | succ c ih =>
    intro n
    obtain ⟨s, k, hs, hP⟩ := hcell n
    obtain ⟨row, k2, hrow, hlen, hall⟩ := ih k
    refine ⟨s :: row, k2, ?_, by simp [hlen], ?_⟩
    · rw [genCells]
      simp only [hs, hrow]
    · intro x hx
      rcases List.mem_cons.mp hx with rfl | hx
      · exact hP
      · exact hall x hx

/-- Lift a per-cell guarantee through the outer loop. -/
theorem genRows_ok_of_cell (P : String → Prop)
    (ft : List (String × FreqTable)) (vt : List (String × List String))
    (lang : String) (vp sp : ℚ) (g : Rng) (cols : Nat)
    (hcell : ∀ n, ∃ s k, genCell ft vt lang vp sp g n = .ok (s, k) ∧ P s) :
    ∀ m n, ∃ b k, genRows ft vt lang vp sp cols g m n = .ok (b, k)
      ∧ b.length = m ∧ ∀ row ∈ b, row.length = cols ∧ ∀ s ∈ row, P s := by
  intro m
  induction m with
  | zero => intro n; exact ⟨[], n, rfl, rfl, by simp⟩
  | succ m ih =>
    intro n
    obtain ⟨row, k, hrow, hlen, hall⟩ :=
      genCells_ok_of_cell P ft vt lang vp sp g hcell cols n
    obtain ⟨b, k2, hb, hblen, ball⟩ := ih k
    refine ⟨row :: b, k2, ?_, by simp [hblen], ?_⟩
    · rw [genRows]
      simp only [hrow, hb]
    · intro x hx
      rcases List.mem_cons.mp hx with rfl | hx
      · exact ⟨hlen, hall⟩
      · exact ball x hx

/-- With vowelProbability 1 and specialLetterProbability 0, a cell is exactly
the vowel-path letter, provided the two branch draws are in the unit
interval. -/
theorem genCell_vowel_only (ft : List (String × FreqTable))
    (vt : List (String × List String)) (lang : String) (g : Rng) (n : Nat)
    (h0 : 0 ≤ g (n + 2)) (h1 : g n < 1) :
    genCell ft vt lang 1 0 g n =
      .ok (getRandomLetterT ft vt lang true (g (n + 1)), n + 3) := by
  unfold genCell
  rw [if_neg (not_lt.mpr h0), decide_eq_true h1]

end PuzzleGenerator
namespace PuzzleGenerator

/-- Claim C5: with vowelProbability 1, specialLetterProbability 0 and language
en, any draw stream with values in the unit interval yields a board whose
every cell is one of A, E, I, O, U, Y. -/
theorem generateBoard_vowelProb_one_all_vowels (rows cols : ℤ) (g : Rng)
    (n : Nat) (hg : ∀ m : Nat, 0 ≤ g m ∧ g m < 1) :
    ∃ b k, generateBoard rows cols "en" 1 0 g n = .ok (b, k)
      ∧ ∀ row ∈ b, ∀ s ∈ row, s ∈ ["A", "E", "I", "O", "U", "Y"] := by
  have hcell : ∀ m, ∃ s k,
      genCell letterFrequencies vowels "en" 1 0 g m = .ok (s, k)
      ∧ s ∈ ["A", "E", "I", "O", "U", "Y"] := by
    intro m
    refine ⟨_, _, genCell_vowel_only letterFrequencies vowels "en" g m
      (hg (m + 2)).1 (hg m).2, ?_⟩
    have hres : resolveVowels vowels "en" = ["A", "E", "I", "O", "U", "Y"] := rfl
    rcases getRandomLetterT_true_mem letterFrequencies vowels "en" (g (m + 1))
      with h | h
    · rw [h, hres]; simp
    · rw [hres] at h; exact h
  obtain ⟨b, k, hb, _, hall⟩ := genRows_ok_of_cell _ letterFrequencies vowels
    "en" 1 0 g cols.toNat hcell rows.toNat n
  exact ⟨b, k, hb, fun row hrow s hs => (hall row hrow).2 s hs⟩

/-- Witness for claim C5 on a 1 by 1 board with the all-zero draw stream. -/
theorem generateBoard_vowelProb_one_all_vowels_witness :
    ∃ b k, generateBoard 1 1 "en" 1 0 (fun _ => 0) 0 = .ok (b, k)
      ∧ ∀ row ∈ b, ∀ s ∈ row, s ∈ ["A", "E", "I", "O", "U", "Y"] :=
  generateBoard_vowelProb_one_all_vowels 1 1 (fun _ => 0) 0
    (fun m => ⟨le_refl 0, by show (0:ℚ) < 1; with_unfolding_all decide⟩)

theorem resolveFreq_mem (lang : String) :
    resolveFreq letterFrequencies lang = enFreq ∨
    resolveFreq letterFrequencies lang = esFreq ∨
    resolveFreq letterFrequencies lang = frFreq := by
  by_cases h1 : lang = "en"
  · subst h1; left; rfl
  by_cases h2 : lang = "es"
  · subst h2; right; left; rfl
  by_cases h3 : lang = "fr"
  · subst h3; right; right; rfl
  left
  have e1 : (lang == "en") = false := beq_eq_false_iff_ne.mpr h1
  have e2 : (lang == "es") = false := beq_eq_false_iff_ne.mpr h2
  have e3 : (lang == "fr") = false := beq_eq_false_iff_ne.mpr h3
  unfold resolveFreq letterFrequencies
  simp only [List.lookup, e1, e2, e3]
  rfl

theorem resolveVowels_mem (lang : String) :
    resolveVowels vowels lang = ["A", "E", "I", "O", "U", "Y"] ∨
    resolveVowels vowels lang = ["A", "E", "I", "O", "U"] ∨
    resolveVowels vowels lang = ["A", "E", "I", "O", "U", "Y", "É", "È", "Ê"] := by
  by_cases h1 : lang = "en"
  · subst h1; left; rfl
  by_cases h2 : lang = "es"
  · subst h2; right; left; rfl
  by_cases h3 : lang = "fr"
  · subst h3; right; right; rfl
  left
  have e1 : (lang == "en") = false := beq_eq_false_iff_ne.mpr h1
  have e2 : (lang == "es") = false := beq_eq_false_iff_ne.mpr h2
  have e3 : (lang == "fr") = false := beq_eq_false_iff_ne.mpr h3
  unfold resolveVowels vowels
  simp only [List.lookup, e1, e2, e3]
  rfl

end PuzzleGenerator
namespace PuzzleGenerator

/-- The result of the general path of getRandomLetter is a key of the resolved
table or the fallback E. -/
theorem getRandomLetterT_false_mem (ft : List (String × FreqTable))
    (vt : List (String × List String)) (lang : String) (r : ℚ) :
    getRandomLetterT ft vt lang false r ∈ (resolveFreq ft lang).map Prod.fst
    ∨ getRandomLetterT ft vt lang false r = "E" := by
  unfold getRandomLetterT
  simp only [Bool.false_eq_true, if_false]
  cases hw : walk (resolveFreq ft lang)
      (r * ((resolveFreq ft lang).map Prod.snd).sum) 0 with
  | none => exact Or.inr rfl
  | some l => exact Or.inl (walk_mem _ _ _ _ hw)

/-- No call of getRandomLetter on the module tables returns the empty
string. -/
theorem getRandomLetter_ne_empty (lang : String) (ev : Bool) (r : ℚ) :
    getRandomLetter lang ev r ≠ "" := by
  unfold getRandomLetter
  cases ev with
  | false =>
    rcases getRandomLetterT_false_mem letterFrequencies vowels lang r with h | h
    · rcases resolveFreq_mem lang with hf | hf | hf <;> rw [hf] at h
      · exact (show ∀ s ∈ enFreq.map Prod.fst, s ≠ "" by with_unfolding_all decide) _ h
      · exact (show ∀ s ∈ esFreq.map Prod.fst, s ≠ "" by with_unfolding_all decide) _ h
      · exact (show ∀ s ∈ frFreq.map Prod.fst, s ≠ "" by with_unfolding_all decide) _ h
    · rw [h]; decide
  | true =>
    rcases getRandomLetterT_true_mem letterFrequencies vowels lang r with h | h
    · rw [h]
      rcases resolveVowels_mem lang with hv | hv | hv <;> rw [hv] <;> decide
    · rcases resolveVowels_mem lang with hv | hv | hv <;> rw [hv] at h
      · exact (show ∀ s ∈ ["A", "E", "I", "O", "U", "Y"], s ≠ "" by decide) _ h
      · exact (show ∀ s ∈ ["A", "E", "I", "O", "U"], s ≠ "" by decide) _ h
      · exact (show ∀ s ∈ ["A", "E", "I", "O", "U", "Y", "É", "È", "Ê"], s ≠ ""
          by decide) _ h

/-- For a present main-language table, the specialLetters filter cannot throw,
and its output draws from the scanned keys. -/
theorem filterSpecial_ok (t : FreqTable) : ∀ ks : List String,
    ∃ l, filterSpecial (some t) ks = .ok l ∧ ∀ s ∈ l, s ∈ ks := by
  intro ks
  induction ks with
  | nil => exact ⟨[], rfl, by simp⟩
  | cons c cs ih =>
    obtain ⟨l, hl, hsub⟩ := ih
    have hcons : ∀ s ∈ c :: l, s ∈ c :: cs := by
      intro s hs
      rcases List.mem_cons.mp hs with rfl | hs
      · exact List.mem_cons_self _ _
      · exact List.mem_cons_of_mem _ (hsub s hs)
    have htail : ∀ s ∈ l, s ∈ c :: cs := fun s hs =>
      List.mem_cons_of_mem _ (hsub s hs)
    rw [filterSpecial]
    by_cases hlen : c.length > 1
    · refine ⟨c :: l, ?_, hcons⟩
      simp only [if_pos hlen, hl]
      rfl
    · cases hlk : List.lookup c t with
      | none =>
        refine ⟨c :: l, ?_, hcons⟩
        simp only [if_neg hlen, hlk, hl]
        rfl
      | some w =>
        by_cases hw0 : w = 0
        · refine ⟨c :: l, ?_, hcons⟩
          simp only [if_neg hlen, hlk, if_pos hw0, hl]
          rfl
        · refine ⟨l, ?_, htail⟩
          simp only [if_neg hlen, hlk, if_neg hw0, hl]

/-- For a draw in the unit interval, JS indexing at the floor of draw times
length lands inside any nonempty array. -/
theorem jsIndex_valid {α : Type} (l : List α) (r : ℚ) (h0 : 0 ≤ r)
    (h1 : r < 1) (hl : 0 < l.length) :
    ∃ x, jsIndex l ⌊r * (l.length : ℚ)⌋ = some x ∧ x ∈ l := by
  have hge : (0 : ℤ) ≤ ⌊r * (l.length : ℚ)⌋ :=
    Int.floor_nonneg.mpr (mul_nonneg h0 (by positivity))
  have hlt : ⌊r * (l.length : ℚ)⌋ < (l.length : ℤ) := by
    rw [Int.floor_lt]
    push_cast
    calc r * (l.length : ℚ) < 1 * (l.length : ℚ) :=
          mul_lt_mul_of_pos_right h1 (by exact_mod_cast hl)
      _ = (l.length : ℚ) := one_mul _
  have htn : (⌊r * (l.length : ℚ)⌋).toNat < l.length := by omega
  refine ⟨l.get ⟨(⌊r * (l.length : ℚ)⌋).toNat, htn⟩, ?_, List.get_mem l _ htn⟩
  unfold jsIndex
  rw [if_neg (not_lt.mpr hge)]
  exact List.get?_eq_get htn

/-- JS indexing only ever returns elements of the array. -/
theorem jsIndex_mem {α : Type} {l : List α} {i : ℤ} {x : α}
    (h : jsIndex l i = some x) : x ∈ l := by
  unfold jsIndex at h
  by_cases hi : i < 0
  · rw [if_pos hi] at h; exact absurd h (by simp)
  · rw [if_neg hi] at h; exact List.get?_mem h

end PuzzleGenerator
namespace PuzzleGenerator

/-- For a supported language and draws in the unit interval, a cell generation
always succeeds and produces a non-empty letter. -/
theorem genCell_supported_ok (lang : String)
    (hlang : lang = "en" ∨ lang = "es" ∨ lang = "fr")
    (vp sp : ℚ) (g : Rng) (hg : ∀ m, 0 ≤ g m ∧ g m < 1) (n : Nat) :
    ∃ s k, genCell letterFrequencies vowels lang vp sp g n = .ok (s, k)
      ∧ s ≠ "" := by
  have hletter := getRandomLetter_ne_empty lang (g n < vp) (g (n + 1))
  unfold genCell
  by_cases hsp : g (n + 2) < sp
  case neg =>
    rw [if_neg hsp]
    exact ⟨_, _, rfl, hletter⟩
  case pos =>
    rw [if_pos hsp]
    by_cases hL : 0 < ((letterFrequencies.map Prod.fst).filter (· ≠ lang)).length
    case neg =>
      rw [if_neg hL]
      exact ⟨_, _, rfl, hletter⟩
    case pos =>
      rw [if_pos hL]
      obtain ⟨otherLang, hidx, hmemL⟩ := jsIndex_valid _ (g (n + 3))
        (hg (n + 3)).1 (hg (n + 3)).2 hL
      simp only [hidx]
      have hkeys : otherLang ∈ (["en", "es", "fr"] : List String) :=
        List.mem_of_mem_filter hmemL
      simp only [List.mem_cons, List.mem_singleton, List.not_mem_nil,
        or_false] at hkeys
      have htabs : ∃ tab, List.lookup otherLang letterFrequencies = some tab
          ∧ (tab = enFreq ∨ tab = esFreq ∨ tab = frFreq) := by
        rcases hkeys with rfl | rfl | rfl
        · exact ⟨enFreq, rfl, Or.inl rfl⟩
        · exact ⟨esFreq, rfl, Or.inr (Or.inl rfl)⟩
        · exact ⟨frFreq, rfl, Or.inr (Or.inr rfl)⟩
      obtain ⟨tab, htab, htabmem⟩ := htabs
      have hmain : ∃ mt, List.lookup lang letterFrequencies = some mt := by
        rcases hlang with rfl | rfl | rfl
        · exact ⟨enFreq, rfl⟩
        · exact ⟨esFreq, rfl⟩
        · exact ⟨frFreq, rfl⟩
      obtain ⟨mt, hmt⟩ := hmain
      obtain ⟨sl, hsl, hslsub⟩ := filterSpecial_ok mt (tab.map Prod.fst)
      simp only [htab, Option.getD_some, hmt, hsl]
      by_cases hsl0 : 0 < sl.length
      case neg =>
        rw [if_neg hsl0]
        exact ⟨_, _, rfl, hletter⟩
      case pos =>
        rw [if_pos hsl0]
        obtain ⟨x, hx, hxmem⟩ := jsIndex_valid sl (g (n + 4))
          (hg (n + 4)).1 (hg (n + 4)).2 hsl0
        simp only [hx]
        refine ⟨x, n + 5, rfl, ?_⟩
        have hxk : x ∈ tab.map Prod.fst := hslsub x hxmem
        rcases htabmem with rfl | rfl | rfl
        · exact (show ∀ s ∈ enFreq.map Prod.fst, s ≠ ""
            by with_unfolding_all decide) _ hxk
        · exact (show ∀ s ∈ esFreq.map Prod.fst, s ≠ ""
            by with_unfolding_all decide) _ hxk
        · exact (show ∀ s ∈ frFreq.map Prod.fst, s ≠ ""
            by with_unfolding_all decide) _ hxk

/-- Claim C3: for positive dimensions and any supported language code,
generateBoard returns a board of exactly rows rows, each row of exactly cols
cells, every cell a non-empty string, for every draw stream with values in
the unit interval. -/
theorem generateBoard_dims_nonempty (rows cols : ℤ) (lang : String)
    (hlang : lang = "en" ∨ lang = "es" ∨ lang = "fr")
    (hrows : 0 < rows) (hcols : 0 < cols) (vp sp : ℚ) (g : Rng) (n : Nat)
    (hg : ∀ m : Nat, 0 ≤ g m ∧ g m < 1) :
    ∃ b k, generateBoard rows cols lang vp sp g n = .ok (b, k)
      ∧ (b.length : ℤ) = rows
      ∧ ∀ row ∈ b, (row.length : ℤ) = cols ∧ ∀ s ∈ row, s ≠ "" := by
  obtain ⟨b, k, hb, hlen, hall⟩ := genRows_ok_of_cell (· ≠ "") letterFrequencies
    vowels lang vp sp g cols.toNat
    (fun m => genCell_supported_ok lang hlang vp sp g hg m) rows.toNat n
  refine ⟨b, k, hb, ?_, ?_⟩
  · rw [hlen, Int.toNat_of_nonneg hrows.le]
  · intro row hrow
    obtain ⟨h1, h2⟩ := hall row hrow
    exact ⟨by rw [h1, Int.toNat_of_nonneg hcols.le], h2⟩

/-- Witness for claim C3 on a 2 by 3 French board with the constant one-half
draw stream. -/
theorem generateBoard_dims_nonempty_witness :
    ∃ b k, generateBoard 2 3 "fr" 0.35 0.15 (fun _ => 1/2) 0 = .ok (b, k)
      ∧ (b.length : ℤ) = 2
      ∧ ∀ row ∈ b, (row.length : ℤ) = 3 ∧ ∀ s ∈ row, s ≠ "" :=
  generateBoard_dims_nonempty 2 3 "fr" (Or.inr (Or.inr rfl)) (by decide)
    (by decide) 0.35 0.15 (fun _ => 1/2) 0
    (fun m => ⟨by show (0:ℚ) ≤ 1/2; with_unfolding_all decide,
               by show (1/2:ℚ) < 1; with_unfolding_all decide⟩)

end PuzzleGenerator
namespace PuzzleGenerator

theorem jsIndex_nil {α : Type} (i : ℤ) : jsIndex ([] : List α) i = none := by
  unfold jsIndex
  split <;> rfl

/-- When the specialLetters set computed for the chosen other language is
empty, the cell keeps the base letter drawn in step 1. -/
theorem genCell_empty_special (ft : List (String × FreqTable))
    (vt : List (String × List String)) (lang : String) (vp sp : ℚ) (g : Rng)
    (n : Nat) (otherLang : String)
    (hsp : g (n + 2) < sp)
    (hidx : jsIndex ((ft.map Prod.fst).filter (· ≠ lang))
      ⌊g (n + 3) * ((((ft.map Prod.fst).filter (· ≠ lang)).length : ℚ))⌋ =
        some otherLang)
    (hempty : filterSpecial (List.lookup lang ft)
      (((List.lookup otherLang ft).getD []).map Prod.fst) = .ok []) :
    genCell ft vt lang vp sp g n =
      .ok (getRandomLetterT ft vt lang (g n < vp) (g (n + 1)), n + 4) := by
  have hL : 0 < ((ft.map Prod.fst).filter (· ≠ lang)).length := by
    rcases Nat.eq_zero_or_pos ((ft.map Prod.fst).filter (· ≠ lang)).length
      with h | h
    · rw [List.length_eq_zero] at h
      rw [h, jsIndex_nil] at hidx
      exact absurd hidx (by simp)
    · exact h
  unfold genCell
  rw [if_pos hsp, if_pos hL]
  simp only [hidx, hempty]
  rfl

/-- With a single configured language generating a board in that language,
every cell reduces to the base letter: the other-language list is empty, so
the special branch changes nothing whatever sp is. -/
theorem genCell_single_language (L : String) (tab : FreqTable)
    (vt : List (String × List String)) (vp sp : ℚ) (g : Rng) (n : Nat) :
    genCell [(L, tab)] vt L vp sp g n =
      .ok (getRandomLetterT [(L, tab)] vt L (g n < vp) (g (n + 1)), n + 3) := by
  unfold genCell
  have hlangs : (([(L, tab)].map Prod.fst).filter (· ≠ L)) = [] := by simp
  by_cases hsp : g (n + 2) < sp
  · rw [if_pos hsp, hlangs]
    simp
  · rw [if_neg hsp]

theorem genCells_single_sp (L : String) (tab : FreqTable)
    (vt : List (String × List String)) (vp sp : ℚ) (g : Rng) :
    ∀ c n, genCells [(L, tab)] vt L vp sp g c n =
      genCells [(L, tab)] vt L vp 0 g c n := by
  intro c
  induction c with
  | zero => intro n; rfl
  | succ c ih =>
    intro n
    rw [genCells, genCells]
    simp only [genCell_single_language, ih]

theorem genRows_single_sp (L : String) (tab : FreqTable)
    (vt : List (String × List String)) (vp sp : ℚ) (cols : Nat) (g : Rng) :
    ∀ m n, genRows [(L, tab)] vt L vp sp cols g m n =
      genRows [(L, tab)] vt L vp 0 cols g m n := by
  intro m
  induction m with
  | zero => intro n; rfl
  | succ m ih =>
    intro n
    rw [genRows, genRows]
    simp only [genCells_single_sp, ih]

/-- Claim C6: an empty special-character substitution set leaves the base
letter of step 1 in place (first conjunct, for any tables and draws that
select some other language whose special set filters to empty); and with a
single configured language, generateBoard with any specialLetterProbability,
1.0 included, equals the base-letter board generated with
specialLetterProbability 0 (second conjunct). -/
theorem generateBoard_empty_special_keeps_base :
    (∀ (ft : List (String × FreqTable)) (vt : List (String × List String))
        (lang : String) (vp sp : ℚ) (g : Rng) (n : Nat) (otherLang : String),
      g (n + 2) < sp →
      jsIndex ((ft.map Prod.fst).filter (· ≠ lang))
        ⌊g (n + 3) * ((((ft.map Prod.fst).filter (· ≠ lang)).length : ℚ))⌋ =
          some otherLang →
      filterSpecial (List.lookup lang ft)
        (((List.lookup otherLang ft).getD []).map Prod.fst) = .ok [] →
      genCell ft vt lang vp sp g n =
        .ok (getRandomLetterT ft vt lang (g n < vp) (g (n + 1)), n + 4))
    ∧ ∀ (L : String) (tab : FreqTable) (vt : List (String × List String))
        (rows cols : ℤ) (vp sp : ℚ) (g : Rng) (n : Nat),
      generateBoardT [(L, tab)] vt rows cols L vp sp g n =
        generateBoardT [(L, tab)] vt rows cols L vp 0 g n := by
  constructor
  · exact fun ft vt lang vp sp g n otherLang =>
      genCell_empty_special ft vt lang vp sp g n otherLang
  · intro L tab vt rows cols vp sp g n
    unfold generateBoardT
    rw [genRows_single_sp]

/-- Witness for claim C6: Spanish cell with draws all 0 selects English as the
other language, whose special set relative to Spanish is empty, so the base
vowel A is kept. -/
theorem generateBoard_empty_special_keeps_base_witness :
    genCell letterFrequencies vowels "es" 1 1 (fun _ => 0) 0 = .ok ("A", 4) := by
  rw [generateBoard_empty_special_keeps_base.1 letterFrequencies vowels "es" 1 1
    (fun _ => 0) 0 "en" (by show (0:ℚ) < 1; with_unfolding_all decide)
    (by with_unfolding_all decide) (by with_unfolding_all decide)]
  with_unfolding_all decide

end PuzzleGenerator

namespace PuzzleGenerator

/-- Witness for claim C7: the table branch at letter B and the long-glyph
branch at XY. -/
theorem getLetterPoints_spec_witness :
    getLetterPoints "B" "fr" = 3 ∧ getLetterPoints "XY" "en" = 8 :=
  ⟨getLetterPoints_spec.2.1 "B" "fr" 3 (by decide) (by decide),
   getLetterPoints_spec.1 "XY" "en" (Or.inl (by decide))⟩

end PuzzleGenerator
